import Mathlib

/-!
# Verification of the movie-search crawl-and-match pipeline

Shallow embedding of the core pipeline of `src/index.ts`: structural link
extraction (`extractLinks`), URL-shape filtering, query matching,
deduplication (`uniqueLinks`), pagination detection (`detectMaxPages`),
crawl planning (the year sequence of `searchMovieLinks`), and the batched
orchestration of page fetches.

HTML parsing (cheerio) and WHATWG URL resolution are external platform
libraries; documents are therefore modelled as the anchor lists the two
selectors of the source observe, and `normalizeUrl` models the resolution
cases the pipeline exercises. All network effects are modelled by a fetch
oracle `String → Option Html` mapping a page URL to the parsed document of
a usable response, or `none` for an unusable or failed fetch (`fetchPage`
returning `null`, or a rejected promise caught to `null`).
-/

/-! ## String primitives (JS semantics on character lists) -/

/-- Model of JS `String.prototype.startsWith`: `pat` is a prefix of `s`. -/
def startsWithChars : List Char → List Char → Bool
  | [], _ => true
  | _ :: _, [] => false
  | p :: ps, c :: cs => p = c && startsWithChars ps cs

/-- Model of JS `String.prototype.includes`: `pat` occurs contiguously in `s`. -/
def containsChars (pat : List Char) : List Char → Bool
  | [] => startsWithChars pat []
  | c :: rest => startsWithChars pat (c :: rest) || containsChars pat rest

/-- JS `s.startsWith(p)` on strings. -/
def strStartsWith (s p : String) : Bool := startsWithChars p.toList s.toList

/-- JS `s.includes(w)` on strings. -/
def strIncludes (s w : String) : Bool := containsChars w.toList s.toList

/-- ASCII lower-casing of one character, as JS `toLowerCase` acts on the
ASCII range used by the pipeline. -/
def lowerChar (c : Char) : Char :=
  if 'A' ≤ c ∧ c ≤ 'Z' then Char.ofNat (c.toNat + 32) else c

/-- Model of JS `String.prototype.toLowerCase`. -/
def lowerStr (s : String) : String := String.mk (s.toList.map lowerChar)

/-- Whitespace characters recognised by JS `trim` and `\s` (the ones that
occur in HTML text). -/
def isSpaceChar (c : Char) : Bool := c = ' ' || c = '\t' || c = '\n' || c = '\r'

/-- Model of JS `String.prototype.trim`: strip whitespace from both ends. -/
def trimStr (s : String) : String :=
  String.mk (((s.toList.dropWhile isSpaceChar).reverse.dropWhile isSpaceChar).reverse)

/-- Accumulator pass for whitespace splitting: collect maximal runs of
non-whitespace characters. -/
def splitWsAux : List Char → List Char → List (List Char)
  | [], cur => if cur.isEmpty then [] else [cur.reverse]
  | c :: rest, cur =>
    if isSpaceChar c then
      (if cur.isEmpty then splitWsAux rest [] else cur.reverse :: splitWsAux rest [])
    else splitWsAux rest (c :: cur)

/-- Model of JS `s.split(/\s+/)` for the already-trimmed strings the source
applies it to (line 68 splits `normalizedQuery`, which is trimmed): the empty
string yields the single empty token `[""]`, and a non-empty trimmed string
yields its whitespace-separated words. -/
def splitQueryWords (s : String) : List String :=
  if s = "" then [""] else (splitWsAux s.toList []).map String.mk

/-! ## URL model

`new URL(href, baseUrl)` and `.origin` are the WHATWG URL platform library,
not repository code; we model the resolution cases the pipeline relies on:
an absolute `http(s)` href resolves to itself, a root-relative href resolves
against the base URL's origin, and anything else is rejected (the `catch`
branch of `normalizeUrl` returning `null`). -/

/-- Characters that terminate the host portion of a URL. -/
def hostEndChar (c : Char) : Bool := c = '/' || c = '?' || c = '#'

/-- Scheme-plus-host portion of an absolute URL, the model of the WHATWG
`URL.origin` accessor used at line 66 of the source. -/
def originChars : List Char → List Char
  | ':' :: '/' :: '/' :: rest =>
      ':' :: '/' :: '/' :: rest.takeWhile (fun c => !hostEndChar c)
  | c :: rest => c :: originChars rest
  | [] => []

/-- Origin (scheme://host) of an absolute URL string. -/
def urlOrigin (s : String) : String := String.mk (originChars s.toList)

/-- Href that is already an absolute http or https URL. -/
def isAbsoluteHttpUrl (s : String) : Bool :=
  strStartsWith (lowerStr s) "http://" || strStartsWith (lowerStr s) "https://"

/-- Model of `normalizeUrl` (source lines 39–46): resolve `href` against
`baseUrl`, returning `none` when resolution fails. -/
def normalizeUrl (baseUrl href : String) : Option String :=
  if isAbsoluteHttpUrl href then some href
  else if strStartsWith href "/" then some (urlOrigin baseUrl ++ href)
  else none

/-! ## Data model -/

/-- Result entry: visible anchor text and resolved URL (source lines 18–21). -/
structure LinkResult where
  title : String
  url : String
deriving DecidableEq, Repr

/-- One anchor element as the extractor sees it: its `href` attribute and its
visible text. A missing `href` attribute is modelled as the empty string; the
falsiness check of the source (line 74) treats both alike. -/
structure Anchor where
  href : String
  text : String
deriving DecidableEq, Repr

/-- Parsed HTML document, reduced to the anchors the two selectors of the
source observe: `wrapperAnchors` are the anchors matched by `"div.f a"`
(inside the designated listing wrapper, line 71), `allAnchors` those matched
by `"a"` (pagination scan, line 113). -/
structure Html where
  wrapperAnchors : List Anchor
  allAnchors : List Anchor
deriving DecidableEq

/-! ## Deduplicator (source lines 48–59) -/

/-- Loop of `uniqueLinks`: the `Set<string>` of already-seen urls is modelled
as the list `seen`. -/
def uniqueLinksAux (seen : List String) : List LinkResult → List LinkResult
  | [] => []
  | link :: rest =>
    if link.url ∈ seen then uniqueLinksAux seen rest
    else link :: uniqueLinksAux (link.url :: seen) rest

/-- Deduplication keyed by url, first occurrence kept (source lines 48–59). -/
def uniqueLinks (links : List LinkResult) : List LinkResult :=
  uniqueLinksAux [] links

/-! ## Extractor (source lines 63–106) -/

/-- Absolute page cap (source line 61). -/
def MAX_PAGES_ABSOLUTE_LIMIT : Nat := 50

/-- Per-anchor step of `extractLinks` (the body of the `each` callback,
source lines 71–103): structural selection has already happened (the anchor
comes from `wrapperAnchors`); apply the non-emptiness, resolution, origin and
slug-shape filters, then the text-or-URL query match, and emit the
`LinkResult` on success. -/
def processAnchor (baseUrl query : String) (a : Anchor) : Option LinkResult :=
  let baseOrigin := lowerStr (urlOrigin baseUrl)
  let normalizedQuery := trimStr (lowerStr query)
  let queryWords := splitQueryWords normalizedQuery
  let text := trimStr a.text
  if a.href = "" ∨ text = "" then none
  else
    match normalizeUrl baseUrl a.href with
    | none => none
    | some url =>
      let lowerUrl := lowerStr url
      if !strStartsWith lowerUrl baseOrigin then none
      else if strIncludes lowerUrl "-movies/" then none
      else if !(strIncludes lowerUrl "-movie/" || strIncludes lowerUrl "-series/") then none
      else
        let lowerText := lowerStr text
        let matchText := queryWords.all (fun w => strIncludes lowerText w)
        let matchUrl := queryWords.all (fun w => strIncludes lowerUrl w)
        if matchText || matchUrl then some ⟨text, url⟩ else none

/-- Extraction of matching links from one document (source lines 63–106):
process each wrapper anchor, then deduplicate. -/
def extractLinks (h : Html) (baseUrl query : String) : List LinkResult :=
  uniqueLinks (h.wrapperAnchors.filterMap (processAnchor baseUrl query))

/-! ## Pagination detector (source lines 109–125) -/

/-- Numeric value of a run of decimal digits, the model of
`parseInt(digits, 10)`. -/
def digitsToNat (ds : List Char) : Nat :=
  ds.foldl (fun acc c => acc * 10 + (c.toNat - '0'.toNat)) 0

/-- Model of `href.match(/[?&]page=(\d+)/)` followed by `parseInt` on the
captured digits: scan for the first occurrence of `?page=` or `&page=`
followed by at least one digit, and return the value of the maximal digit
run there. -/
def findPageNum : List Char → Option Nat
  | [] => none
  | c :: rest =>
    if (c = '?' || c = '&') && startsWithChars ['p', 'a', 'g', 'e', '='] rest
        && (match rest.drop 5 with | d :: _ => d.isDigit | [] => false) then
      some (digitsToNat ((rest.drop 5).takeWhile Char.isDigit))
    else findPageNum rest

/-- Highest page number referenced by any anchor of the document, defaulting
to 1 (source lines 109–125). Anchors with a missing (empty) href are skipped. -/
def detectMaxPages (h : Html) : Nat :=
  h.allAnchors.foldl
    (fun maxPage a =>
      if a.href = "" then maxPage
      else
        match findPageNum a.href.toList with
        | some p => if p > maxPage then p else maxPage
        | none => maxPage)
    1

/-! ## Crawl planner and batch orchestrator (source lines 135–203) -/

/-- Lookback constant (source line 135). -/
def YEAR_RANGE : Nat := 7

/-- Batch size for concurrent page fetches (source line 181). -/
def BATCH_SIZE : Nat := 10

/-- Year sequence scanned by `searchMovieLinks` (source lines 145–148):
`currentYear + 1`, then `currentYear - i` for `i = 0, …, YEAR_RANGE - 1`. -/
def yearsToScan (currentYear : ℤ) : List ℤ :=
  (currentYear + 1) :: (List.range YEAR_RANGE).map (fun i => currentYear - i)

/-- First listing-page URL of a year (source line 161). -/
def page1Url (baseUrl : String) (year : ℤ) : String :=
  baseUrl ++ "/tamil-" ++ toString year ++ "-movies/"

/-- Listing-page URL for page `p > 1` of a year (source line 177). -/
def pageNUrl (baseUrl : String) (year : ℤ) (p : Nat) : String :=
  baseUrl ++ "/tamil-" ++ toString year ++ "-movies/?page=" ++ toString p

/-- Fetch oracle: the outcome of `fetchPage` for each URL, already parsed —
`none` for an unusable response or transport failure, `some h` for a usable
body parsed into its anchors. -/
def Fetch : Type := String → Option Html

/-- Fetch-and-extract of one page (the body of the batch lambda, source
lines 185–189): a failed page contributes no links. -/
def pageLinks (fetch : Fetch) (baseUrl query url : String) : List LinkResult :=
  match fetch url with
  | none => []
  | some h => extractLinks h baseUrl query

/-- Page count used for a year, after the absolute clamp (source lines
171–172): `detectMaxPages` of the first page, reduced to
`MAX_PAGES_ABSOLUTE_LIMIT` when it exceeds it. -/
def clampedMaxPages (detected : Nat) : Nat :=
  if detected > MAX_PAGES_ABSOLUTE_LIMIT then MAX_PAGES_ABSOLUTE_LIMIT else detected

/-- URLs of the further pages of a year (source lines 174–178): pages
`2 … maxPages` when more than one page exists, nothing otherwise. -/
def restPageUrls (baseUrl : String) (year : ℤ) (maxPages : Nat) : List String :=
  if maxPages > 1 then
    (List.range (maxPages - 1)).map (fun i => pageNUrl baseUrl year (i + 2))
  else []

/-- Fixed-size slices of a list, the model of the `slice(i, i + BATCH_SIZE)`
chunking loop (source lines 182–183). -/
def chunks (n : Nat) (l : List α) : List (List α) :=
  match n, l with
  | _, [] => []
  | 0, l => [l]
  | n + 1, x :: xs => ((x :: xs).take (n + 1)) :: chunks (n + 1) (xs.drop n)
termination_by l.length
decreasing_by simp [List.length_drop]; omega

/-- Results of one batch, in page-URL order: the model of
`Promise.all(batch.map(...))`, whose resolved array is indexed by argument
position, not completion order (source lines 184–190). -/
def batchResults (fetch : Fetch) (baseUrl query : String) (batch : List String) :
    List (List LinkResult) :=
  batch.map (pageLinks fetch baseUrl query)

/-- Links contributed by one year (source lines 159–193): extract from the
first page, clamp the detected page count, then fetch and extract the
remaining pages in batches, concatenating batch results in order. A year
whose first page fetch fails contributes nothing. -/
def yearLinks (fetch : Fetch) (baseUrl query : String) (year : ℤ) : List LinkResult :=
  match fetch (page1Url baseUrl year) with
  | none => []
  | some h1 =>
    let links1 := extractLinks h1 baseUrl query
    let maxPages := clampedMaxPages (detectMaxPages h1)
    let pageUrls := restPageUrls baseUrl year maxPages
    links1 ++
      ((chunks BATCH_SIZE pageUrls).map
        (fun batch => (batchResults fetch baseUrl query batch).flatten)).flatten

/-- URLs for which a fetch is issued while processing one year: the first
page always, and the further batched pages only when the first page was
usable (source lines 160–192). -/
def yearFetchedUrls (fetch : Fetch) (baseUrl : String) (year : ℤ) : List String :=
  page1Url baseUrl year ::
    (match fetch (page1Url baseUrl year) with
     | none => []
     | some h1 => restPageUrls baseUrl year (clampedMaxPages (detectMaxPages h1)))

/-- Accumulation of links across the planned years, in planner order
(the sequential `for (const year of yearsToScan)` loop, source line 159). -/
def scanYears (fetch : Fetch) (baseUrl query : String) (years : List ℤ) : List LinkResult :=
  (years.map (yearLinks fetch baseUrl query)).flatten

/-- Invocation parameters after schema validation (source lines 10–14):
`maxResults` is optional, `none` when omitted. -/
structure SearchParams where
  baseUrl : String
  query : String
  maxResults : Option Nat

/-- Full pipeline of `searchMovieLinks` (source lines 137–203): trim the
query, scan all planned years sequentially, deduplicate globally, and
truncate to `maxResults` (default 10). -/
def searchMovieLinks (fetch : Fetch) (currentYear : ℤ) (params : SearchParams) :
    List LinkResult :=
  let query := trimStr params.query
  let maxResults := params.maxResults.getD 10
  let allLinks := scanYears fetch params.baseUrl query (yearsToScan currentYear)
  (uniqueLinks allLinks).take maxResults

/-! ## Arrival-order model of one concurrent batch

`Promise.all(batch.map(...))` (source lines 184–190) resolves to an array
indexed by argument position, whatever order the concurrent fetches complete
in. To state that explicitly, we model a batch execution in which results
arrive in an arbitrary order `arrival` (a permutation of the batch indices)
and each result is stored at its own index as it arrives. -/

/-- Store each arriving result at its own slot: `arrival` lists the indices
in completion order, and slot `i` receives the links of page `i`. -/
def fillSlots (f : Nat → List LinkResult) :
    List Nat → List (Option (List LinkResult)) → List (Option (List LinkResult))
  | [], slots => slots
  | i :: rest, slots => fillSlots f rest (slots.set i (some (f i)))

/-- Batch execution under an explicit completion order: slots are read out
in index order after every fetch of the batch has completed. -/
def batchResultsWithArrival (fetch : Fetch) (baseUrl query : String)
    (batch : List String) (arrival : List Nat) : List (List LinkResult) :=
  (fillSlots (fun i => pageLinks fetch baseUrl query (batch.getD i "")) arrival
      (List.replicate batch.length none)).map (fun o => o.getD [])

/-! ## Concrete documents and oracles used by witnesses -/

/-- Listing document whose pagination anchors report page 9999. -/
def pagedDoc : Html := ⟨[], [⟨"?page=9999", "x"⟩]⟩

/-- Fetch oracle serving `pagedDoc` for the first 2025 listing page only. -/
def pagedFetch : Fetch :=
  fun u => if u = page1Url "https://example.com" 2025 then some pagedDoc else none

/-- Document with a single matching wrapper anchor. -/
def alphaDoc : Html := ⟨[⟨"/alpha-2025-tamil-movie/", "Alpha"⟩], []⟩

/-- Fetch oracle serving `alphaDoc` for one page URL only. -/
def alphaFetch : Fetch :=
  fun u => if u = "https://example.com/tamil-2025-movies/?page=2" then some alphaDoc else none

/-! ## Specification-side definitions used for comparison -/

/-- Year sequence as the specification describes it: the year after current,
then the current year, then each of the `YEAR_RANGE` years preceding the
current year. Written from the spec's words, to be compared with
`yearsToScan`, which is translated from the source. -/
def plannedYearsSpec (currentYear : ℤ) : List ℤ :=
  (currentYear + 1) :: currentYear ::
    (List.range YEAR_RANGE).map (fun i => currentYear - 1 - i)

/-! ## Deduplicator lemmas -/

theorem uniqueLinksAux_sublist (l : List LinkResult) :
    ∀ seen, List.Sublist (uniqueLinksAux seen l) l := by
  induction l with
  | nil => intro seen; simp [uniqueLinksAux]
  | cons a rest ih =>
    intro seen
    simp only [uniqueLinksAux]
    split
    · exact List.Sublist.cons a (ih seen)
    · exact List.Sublist.cons₂ a (ih (a.url :: seen))

theorem uniqueLinksAux_not_mem_seen (l : List LinkResult) :
    ∀ seen r, r ∈ uniqueLinksAux seen l → r.url ∉ seen := by
  induction l with
  | nil => intro seen r hr; simp [uniqueLinksAux] at hr
  | cons a rest ih =>
    intro seen r hr
    simp only [uniqueLinksAux] at hr
    split at hr
    · exact ih seen r hr
    · rcases List.mem_cons.mp hr with h | h
      · subst h
        assumption
      · intro hs
        exact ih (a.url :: seen) r h (List.mem_cons_of_mem _ hs)

theorem uniqueLinksAux_pairwise (l : List LinkResult) :
    ∀ seen, (uniqueLinksAux seen l).Pairwise (fun x y => x.url ≠ y.url) := by
  induction l with
  | nil => intro seen; simp [uniqueLinksAux]
  | cons a rest ih =>
    intro seen
    simp only [uniqueLinksAux]
    split
    · exact ih seen
    · refine List.Pairwise.cons ?_ (ih (a.url :: seen))
      intro b hb he
      exact uniqueLinksAux_not_mem_seen rest (a.url :: seen) b hb
        (by rw [← he]; exact List.mem_cons_self _ _)

theorem uniqueLinksAux_first_wins (l : List LinkResult) :
    ∀ seen r, r ∈ l → r.url ∉ seen →
      ∃ f, l.find? (fun x => x.url == r.url) = some f ∧ f ∈ uniqueLinksAux seen l := by
  induction l with
  | nil => intro seen r hr; cases hr
  | cons a rest ih =>
    intro seen r hr hs
    by_cases ha : a.url = r.url
    · refine ⟨a, ?_, ?_⟩
      · simp [List.find?, ha]
      · have haseen : a.url ∉ seen := by rw [ha]; exact hs
        simp only [uniqueLinksAux]
        rw [if_neg haseen]
        exact List.mem_cons_self _ _
    · have hrr : r ∈ rest := by
        rcases List.mem_cons.mp hr with h | h
        · exact absurd (by rw [h]) ha
        · exact h
      have hbeq : (a.url == r.url) = false := by simp [ha]
      have hfind : (a :: rest).find? (fun x => x.url == r.url)
          = rest.find? (fun x => x.url == r.url) := by
        simp [List.find?, hbeq]
      by_cases hseen : a.url ∈ seen
      · obtain ⟨f, hf, hmem⟩ := ih seen r hrr hs
        refine ⟨f, by rw [hfind]; exact hf, ?_⟩
        simp only [uniqueLinksAux]
        rw [if_pos hseen]
        exact hmem
      · have hns : r.url ∉ a.url :: seen := by
          intro hmem
          rcases List.mem_cons.mp hmem with h | h
          · exact ha h.symm
          · exact hs h
        obtain ⟨f, hf, hmem⟩ := ih (a.url :: seen) r hrr hns
        refine ⟨f, by rw [hfind]; exact hf, ?_⟩
        simp only [uniqueLinksAux]
        rw [if_neg hseen]
        exact List.mem_cons_of_mem _ hmem

/-! ## Extractor lemmas -/

theorem containsChars_nil (l : List Char) : containsChars [] l = true := by
  cases l with
  | nil => rfl
  | cons c rest => simp [containsChars, startsWithChars]

theorem strIncludes_nil (s : String) : strIncludes s "" = true :=
  containsChars_nil s.toList

/-- Value of the per-anchor step once the structural, non-emptiness, origin
and slug-shape filters are known to pass: everything reduces to the
text-or-URL query match. -/
theorem processAnchor_filters_pass (baseUrl query : String) (a : Anchor) (url : String)
    (hhref : a.href ≠ "") (htext : trimStr a.text ≠ "")
    (hurl : normalizeUrl baseUrl a.href = some url)
    (horigin : strStartsWith (lowerStr url) (lowerStr (urlOrigin baseUrl)) = true)
    (hdeny : strIncludes (lowerStr url) "-movies/" = false)
    (hallow : (strIncludes (lowerStr url) "-movie/"
        || strIncludes (lowerStr url) "-series/") = true) :
    processAnchor baseUrl query a =
      if ((splitQueryWords (trimStr (lowerStr query))).all
            (fun w => strIncludes (lowerStr (trimStr a.text)) w)
          || (splitQueryWords (trimStr (lowerStr query))).all
            (fun w => strIncludes (lowerStr url) w)) then
        some ⟨trimStr a.text, url⟩
      else none := by
  simp only [processAnchor, hurl]
  rw [if_neg (by push_neg; exact ⟨hhref, htext⟩)]
  simp only [horigin, hdeny, hallow, Bool.not_true, Bool.false_eq_true, if_false,
    Bool.true_eq_false]

/-! ## Claim theorems -/

/-- C1: the claim states that every LinkResult returned by `extractLinks`
has a url whose origin equals the origin of `baseUrl`. The code violates
this: the origin filter (source line 82) is `lowerUrl.startsWith(baseOrigin)`,
a string-prefix test on the whole URL, although the comment above it says
"Must be from the same origin". For base URL `https://example.com` and an
anchor whose href is the absolute URL
`https://example.com.evil.org/a-movie/` — a different host whose text merely
extends the base origin — the link passes every filter and is returned, yet
its origin differs from the base origin. -/
theorem extractLinks_origin_prefix_bug :
    extractLinks ⟨[⟨"https://example.com.evil.org/a-movie/", "a"⟩], []⟩
        "https://example.com" "a"
      = [⟨"a", "https://example.com.evil.org/a-movie/"⟩] ∧
    lowerStr (urlOrigin "https://example.com.evil.org/a-movie/")
      ≠ lowerStr (urlOrigin "https://example.com") := by
  constructor
  · rfl
  · decide

/-- C2 counterexample: the claim states that the planner emits the year
after current, the current year, and then the 7 years preceding the current
year. At `currentYear = 2025` the source's sequence is
`[2026, 2025, 2024, 2023, 2022, 2021, 2020, 2019]` — the loop
`for i in 0 … 6` starts at the current year itself, so only 6 preceding
years appear and the claimed sequence (which ends at 2018) differs. -/
theorem yearsToScan_ne_spec : yearsToScan 2025 ≠ plannedYearsSpec 2025 := by
  decide

/-- C2 amended: the planner produces the year after current, then the
current year, then the 6 years preceding the current year — the 7-year
lookback range begins at the current year itself, so the past years scanned
in addition to the current and next year number 6, not 7. -/
theorem yearsToScan_eq (y : ℤ) :
    yearsToScan y = [y + 1, y, y - 1, y - 2, y - 3, y - 4, y - 5, y - 6] := by
  simp only [yearsToScan, YEAR_RANGE, List.range_succ, List.range_zero,
    List.map_append, List.map_cons, List.map_nil, List.nil_append,
    List.cons_append, List.append_nil]
  norm_num

/-- C7: `uniqueLinks` returns a stable subsequence of its input in which no
two elements share a url, and for every url of the input the retained
element is the input's first occurrence of that url — title included, since
the whole first-occurrence record is kept. -/
theorem uniqueLinks_spec (l : List LinkResult) :
    List.Sublist (uniqueLinks l) l ∧
    (uniqueLinks l).Pairwise (fun x y => x.url ≠ y.url) ∧
    ∀ r ∈ l, ∃ f, l.find? (fun x => x.url == r.url) = some f ∧ f ∈ uniqueLinks l :=
  ⟨uniqueLinksAux_sublist l [], uniqueLinksAux_pairwise l [],
    fun r hr => uniqueLinksAux_first_wins l [] r hr (by simp)⟩

/-- C7 witness: on a concrete two-element list with a duplicated url, the
first-occurrence clause of `uniqueLinks_spec` yields the first record. -/
theorem uniqueLinks_spec_witness :
    ∃ f, ([⟨"A", "u"⟩, ⟨"B", "u"⟩] : List LinkResult).find?
        (fun x => x.url == (⟨"B", "u"⟩ : LinkResult).url) = some f ∧
      f ∈ uniqueLinks [⟨"A", "u"⟩, ⟨"B", "u"⟩] :=
  (uniqueLinks_spec [⟨"A", "u"⟩, ⟨"B", "u"⟩]).2.2 ⟨"B", "u"⟩ (by decide)

/-- C3: for every anchor that passes the structural selection (it is among
the wrapper anchors the extractor walks), the non-emptiness, origin and
slug-shape filters, the per-anchor step emits its LinkResult if and only if
all whitespace-split lowercase query words are substrings of the lowercased
visible text, or all of them are substrings of the lowercased resolved URL —
either match mode alone suffices. -/
theorem processAnchor_match_iff (baseUrl query : String) (a : Anchor) (url : String)
    (hhref : a.href ≠ "") (htext : trimStr a.text ≠ "")
    (hurl : normalizeUrl baseUrl a.href = some url)
    (horigin : strStartsWith (lowerStr url) (lowerStr (urlOrigin baseUrl)) = true)
    (hdeny : strIncludes (lowerStr url) "-movies/" = false)
    (hallow : (strIncludes (lowerStr url) "-movie/"
        || strIncludes (lowerStr url) "-series/") = true) :
    processAnchor baseUrl query a = some ⟨trimStr a.text, url⟩ ↔
      ((splitQueryWords (trimStr (lowerStr query))).all
          (fun w => strIncludes (lowerStr (trimStr a.text)) w) = true ∨
        (splitQueryWords (trimStr (lowerStr query))).all
          (fun w => strIncludes (lowerStr url) w) = true) := by
  rw [processAnchor_filters_pass baseUrl query a url hhref htext hurl horigin hdeny hallow]
  split
  · rename_i h
    simp only [Bool.or_eq_true] at h
    simpa using h
  · rename_i h
    simp only [Bool.or_eq_true] at h
    push_neg at h
    simp [h.1, h.2]

/-- C3 witness: the spec's scenario — href `/dhandoraa-2025-tamil-movie/`,
text "Dhandoraa 2025 Movie", query "dhandoraa" against base
`https://example.com` — instantiates the match equivalence. -/
theorem processAnchor_match_iff_witness :
    (processAnchor "https://example.com" "dhandoraa"
          ⟨"/dhandoraa-2025-tamil-movie/", "Dhandoraa 2025 Movie"⟩
        = some ⟨trimStr "Dhandoraa 2025 Movie",
            "https://example.com/dhandoraa-2025-tamil-movie/"⟩ ↔
      ((splitQueryWords (trimStr (lowerStr "dhandoraa"))).all
          (fun w => strIncludes (lowerStr (trimStr "Dhandoraa 2025 Movie")) w) = true ∨
        (splitQueryWords (trimStr (lowerStr "dhandoraa"))).all
          (fun w => strIncludes
            (lowerStr "https://example.com/dhandoraa-2025-tamil-movie/") w) = true)) :=
  processAnchor_match_iff "https://example.com" "dhandoraa"
    ⟨"/dhandoraa-2025-tamil-movie/", "Dhandoraa 2025 Movie"⟩
    "https://example.com/dhandoraa-2025-tamil-movie/"
    (by decide) (by decide) (by decide) (by decide) (by decide) (by decide)

/-- C4: for every anchor whose href resolves, a resolved URL whose lowercased
form contains `-movies/` is always rejected, and the per-anchor step accepts
only when the lowercased URL contains `-movie/` or `-series/` — the denylist
fires before the allowlist, so a URL carrying both markers is rejected. -/
theorem processAnchor_slug_filter (baseUrl query : String) (a : Anchor) (url : String)
    (hurl : normalizeUrl baseUrl a.href = some url) :
    (strIncludes (lowerStr url) "-movies/" = true →
      processAnchor baseUrl query a = none) ∧
    (∀ r, processAnchor baseUrl query a = some r →
      (strIncludes (lowerStr url) "-movie/"
        || strIncludes (lowerStr url) "-series/") = true) := by
  constructor
  · intro hdeny
    simp [processAnchor, hurl, hdeny]
  · intro r hr
    simp only [processAnchor, hurl] at hr
    split at hr
    · exact Option.noConfusion hr
    · split at hr
      · exact Option.noConfusion hr
      · split at hr
        · exact Option.noConfusion hr
        · split at hr
          · exact Option.noConfusion hr
          · rename_i hcond
            rcases Bool.eq_false_or_eq_true (strIncludes (lowerStr url) "-movie/"
                || strIncludes (lowerStr url) "-series/") with hb | hb
            · exact hb
            · exact absurd (by simp [hb]) hcond

/-- C4 witness: the spec's category anchor `/tamil-2025-movies/` carries the
plural marker and is rejected by the per-anchor step. -/
theorem processAnchor_slug_filter_witness :
    strIncludes (lowerStr "https://example.com/tamil-2025-movies/") "-movies/" = true ∧
    processAnchor "https://example.com" "dhandoraa"
      ⟨"/tamil-2025-movies/", "Tamil 2025 Movies"⟩ = none :=
  ⟨by decide,
    (processAnchor_slug_filter "https://example.com" "dhandoraa"
      ⟨"/tamil-2025-movies/", "Tamil 2025 Movies"⟩
      "https://example.com/tamil-2025-movies/" (by decide)).1 (by decide)⟩

/-- C10: a query whose lowercased, trimmed text is empty (a whitespace-only
query, which passes the non-empty input validation) tokenizes to the single
empty-string token; the empty string is a substring of every string, so the
match step excludes nothing: every anchor that passes the structural,
non-emptiness, origin and slug-shape filters is emitted. -/
theorem processAnchor_whitespace_query (baseUrl query : String) (a : Anchor) (url : String)
    (hq : trimStr (lowerStr query) = "")
    (hhref : a.href ≠ "") (htext : trimStr a.text ≠ "")
    (hurl : normalizeUrl baseUrl a.href = some url)
    (horigin : strStartsWith (lowerStr url) (lowerStr (urlOrigin baseUrl)) = true)
    (hdeny : strIncludes (lowerStr url) "-movies/" = false)
    (hallow : (strIncludes (lowerStr url) "-movie/"
        || strIncludes (lowerStr url) "-series/") = true) :
    splitQueryWords (trimStr (lowerStr query)) = [""] ∧
    processAnchor baseUrl query a = some ⟨trimStr a.text, url⟩ := by
  have hsplit : splitQueryWords (trimStr (lowerStr query)) = [""] := by
    rw [hq]; rfl
  refine ⟨hsplit, ?_⟩
  rw [processAnchor_filters_pass baseUrl query a url hhref htext hurl horigin hdeny hallow,
    hsplit]
  simp [strIncludes_nil]

/-- C10 witness: the whitespace query `" "` with a concrete anchor that
passes every filter is emitted unconditionally. -/
theorem processAnchor_whitespace_query_witness :
    splitQueryWords (trimStr (lowerStr " ")) = [""] ∧
    processAnchor "https://example.com" " " ⟨"/unrelated-2019-film-movie/", "Some Film"⟩
      = some ⟨trimStr "Some Film", "https://example.com/unrelated-2019-film-movie/"⟩ :=
  processAnchor_whitespace_query "https://example.com" " "
    ⟨"/unrelated-2019-film-movie/", "Some Film"⟩
    "https://example.com/unrelated-2019-film-movie/"
    (by decide) (by decide) (by decide) (by decide) (by decide) (by decide) (by decide)

/-! ## Orchestrator lemmas -/

theorem restPageUrls_length (baseUrl : String) (year : ℤ) (m : Nat) :
    (restPageUrls baseUrl year m).length = if m > 1 then m - 1 else 0 := by
  simp only [restPageUrls]
  split <;> simp

theorem clampedMaxPages_le (d : Nat) : clampedMaxPages d ≤ 50 := by
  simp only [clampedMaxPages, MAX_PAGES_ABSOLUTE_LIMIT]
  split <;> omega

theorem fillSlots_length (f : Nat → List LinkResult) :
    ∀ (arrival : List Nat) (slots : List (Option (List LinkResult))),
      (fillSlots f arrival slots).length = slots.length := by
  intro arrival
  induction arrival with
  | nil => intro slots; rfl
  | cons i rest ih =>
    intro slots
    simp only [fillSlots]
    rw [ih (slots.set i (some (f i))), List.length_set]

theorem fillSlots_getElem? (f : Nat → List LinkResult) :
    ∀ (arrival : List Nat) (slots : List (Option (List LinkResult))) (j : Nat),
      j < slots.length →
      (fillSlots f arrival slots)[j]?
        = if j ∈ arrival then some (some (f j)) else slots[j]? := by
  intro arrival
  induction arrival with
  | nil => intro slots j hj; simp [fillSlots]
  | cons i rest ih =>
    intro slots j hj
    simp only [fillSlots]
    rw [ih (slots.set i (some (f i))) j (by simpa using hj)]
    by_cases hjr : j ∈ rest
    · simp [hjr]
    · by_cases hij : i = j
      · subst hij
        simp [hjr, List.getElem?_set, hj]
      · simp [hjr, hij, List.getElem?_set]
        exact (if_neg (fun h => hij h.symm)).symm

/-- C5: however large a page count the pagination detector reports for a
year whose first listing page was fetched successfully, the clamp at
`MAX_PAGES_ABSOLUTE_LIMIT` bounds the listing-page fetches issued for that
year (the first page plus the planned further pages) at 50. -/
theorem yearFetchedUrls_le_50 (fetch : Fetch) (baseUrl : String) (year : ℤ) (h : Html)
    (hfetch : fetch (page1Url baseUrl year) = some h) :
    (yearFetchedUrls fetch baseUrl year).length ≤ 50 := by
  simp only [yearFetchedUrls, hfetch, List.length_cons, restPageUrls_length]
  have hle := clampedMaxPages_le (detectMaxPages h)
  split <;> omega

/-- C5 witness: a first page whose pagination anchors report page 9999
still plans exactly 50 fetches at most for its year. -/
theorem yearFetchedUrls_le_50_witness :
    pagedFetch (page1Url "https://example.com" 2025) = some pagedDoc ∧
    (yearFetchedUrls pagedFetch "https://example.com" 2025).length ≤ 50 :=
  ⟨by decide,
    yearFetchedUrls_le_50 pagedFetch "https://example.com" 2025 pagedDoc (by decide)⟩

/-- C6: a year whose first listing-page fetch is unusable or fails
contributes zero links, causes no further fetch for that year (the only URL
ever requested is the first page — in particular the pagination probe, which
only runs on a fetched document, never runs for that year), and the scan of
the remaining years proceeds unchanged. -/
theorem yearSkip_on_failed_first_page (fetch : Fetch) (baseUrl query : String)
    (year : ℤ) (moreYears : List ℤ)
    (hfail : fetch (page1Url baseUrl year) = none) :
    yearLinks fetch baseUrl query year = [] ∧
    yearFetchedUrls fetch baseUrl year = [page1Url baseUrl year] ∧
    scanYears fetch baseUrl query (year :: moreYears)
      = scanYears fetch baseUrl query moreYears := by
  refine ⟨?_, ?_, ?_⟩
  · simp [yearLinks, hfail]
  · simp [yearFetchedUrls, hfail]
  · simp [scanYears, yearLinks, hfail]

/-- C6 witness: with an oracle on which every fetch fails, the 2025 year is
skipped whole and the scan equals the scan of the remaining years. -/
theorem yearSkip_on_failed_first_page_witness :
    (fun _ => none : Fetch) (page1Url "https://example.com" 2025) = none ∧
    (yearLinks (fun _ => none) "https://example.com" "q" 2025 = [] ∧
      yearFetchedUrls (fun _ => none) "https://example.com" 2025
        = [page1Url "https://example.com" 2025] ∧
      scanYears (fun _ => none) "https://example.com" "q" [2025, 2024]
        = scanYears (fun _ => none) "https://example.com" "q" [2024]) :=
  ⟨rfl, yearSkip_on_failed_first_page (fun _ => none) "https://example.com" "q"
    2025 [2024] rfl⟩

/-- C8: the pipeline returns at most `maxResults` links, where `maxResults`
defaults to 10 when omitted and is validated into the range `[1, 50]`;
consequently the returned size never exceeds 50. -/
theorem searchMovieLinks_length_le (fetch : Fetch) (currentYear : ℤ)
    (params : SearchParams)
    (hmax : ∀ m, params.maxResults = some m → 1 ≤ m ∧ m ≤ 50) :
    (searchMovieLinks fetch currentYear params).length ≤ params.maxResults.getD 10 ∧
    (searchMovieLinks fetch currentYear params).length ≤ 50 := by
  have h1 : (searchMovieLinks fetch currentYear params).length
      ≤ params.maxResults.getD 10 := by
    simp only [searchMovieLinks]
    exact List.length_take_le _ _
  refine ⟨h1, le_trans h1 ?_⟩
  cases hm : params.maxResults with
  | none => simp
  | some m => simpa using (hmax m hm).2

/-- C8 witness: a request with `maxResults = 5` on an all-failing oracle
returns at most 5 and at most 50 links. -/
theorem searchMovieLinks_length_le_witness :
    (searchMovieLinks (fun _ => none) 2025
        ⟨"https://example.com", "q", some 5⟩).length ≤ (some 5 : Option Nat).getD 10 ∧
    (searchMovieLinks (fun _ => none) 2025
        ⟨"https://example.com", "q", some 5⟩).length ≤ 50 :=
  searchMovieLinks_length_le (fun _ => none) 2025 ⟨"https://example.com", "q", some 5⟩
    (by intro m hm; cases hm; exact ⟨by omega, by omega⟩)

/-- C9: with the outcome of every page fetch fixed, the result sequence of a
batch is the same for every completion order of its concurrent fetches:
each page's links are stored at the page's own index (the `Promise.all`
contract) and read out in planned page-URL order, so an arbitrary arrival
permutation produces exactly the planned-order batch results. -/
theorem batchResults_arrival_independent (fetch : Fetch) (baseUrl query : String)
    (batch : List String) (arrival : List Nat)
    (hperm : arrival.Perm (List.range batch.length)) :
    batchResultsWithArrival fetch baseUrl query batch arrival
      = batchResults fetch baseUrl query batch := by
  apply List.ext_getElem?
  intro j
  simp only [batchResultsWithArrival, batchResults, List.getElem?_map]
  by_cases hj : j < batch.length
  · rw [fillSlots_getElem? _ arrival (List.replicate batch.length none) j
      (by simpa using hj)]
    have hmem : j ∈ arrival := by
      rw [hperm.mem_iff, List.mem_range]
      exact hj
    rw [if_pos hmem, List.getElem?_eq_getElem hj]
    simp [List.getD_eq_getElem batch "" hj, List.getElem?_eq_getElem hj]
  · have hlen : (fillSlots (fun i => pageLinks fetch baseUrl query (batch.getD i ""))
        arrival (List.replicate batch.length none)).length = batch.length := by
      rw [fillSlots_length, List.length_replicate]
    rw [List.getElem?_eq_none (by omega), List.getElem?_eq_none (by omega)]
    rfl

/-- C9 witness: a two-page batch whose fetches complete in reversed order
yields the same results as the planned order. -/
theorem batchResults_arrival_independent_witness :
    ([1, 0] : List Nat).Perm
      (List.range (["https://example.com/tamil-2025-movies/?page=2",
        "https://example.com/tamil-2025-movies/?page=3"] : List String).length) ∧
    batchResultsWithArrival alphaFetch "https://example.com" "alpha"
        ["https://example.com/tamil-2025-movies/?page=2",
          "https://example.com/tamil-2025-movies/?page=3"] [1, 0]
      = batchResults alphaFetch "https://example.com" "alpha"
        ["https://example.com/tamil-2025-movies/?page=2",
          "https://example.com/tamil-2025-movies/?page=3"] :=
  ⟨by decide,
    batchResults_arrival_independent alphaFetch "https://example.com" "alpha"
      ["https://example.com/tamil-2025-movies/?page=2",
        "https://example.com/tamil-2025-movies/?page=3"] [1, 0] (by decide)⟩
